import Mathlib

/-!
A shallow embedding of the chat backend of the Audit Vault repository
(`src/backend/src/chat/chat.service.ts`, together with the revised
`ChatService.sanitizeAssistantContent` helper that appears in `src/ISSUES.md`),
and proofs about its specified properties.

Conventions of the embedding:
* JavaScript strings are modelled as Lean `String` (a list of characters);
  `slice(0, n)` becomes `List.take n` on the character list.
* Database ids and `createdAt` timestamps are modelled as `Nat` drawn from a
  single monotone counter in the database state, mirroring the uniqueness of
  generated ids and the monotonicity of creation times of successive inserts.
* Prisma queries become pure functions over an explicit database state.
* The outbound HTTP call becomes a function parameter from the request payload
  to a provider result; the result of `sendMessage` records how many times the
  provider was invoked, so that "no outbound call" is expressible.
-/

namespace AuditVault

/-- ECMAScript whitespace: the character class matched by the regex `\s`
and removed from both ends by `String.prototype.trim`. -/
def isJsSpace (c : Char) : Bool :=
  c == ' ' || c == '\t' || c == '\n' || c == '\x0b' || c == '\x0c' || c == '\r' ||
  c == '\u00A0' || c == '\u1680' || c == '\u2000' || c == '\u2001' || c == '\u2002' ||
  c == '\u2003' || c == '\u2004' || c == '\u2005' || c == '\u2006' || c == '\u2007' ||
  c == '\u2008' || c == '\u2009' || c == '\u200A' || c == '\u2028' || c == '\u2029' ||
  c == '\u202F' || c == '\u205F' || c == '\u3000' || c == '\uFEFF'

/-- ECMAScript line terminators, which the regex metacharacter `.` never matches. -/
def isLineTerm (c : Char) : Bool :=
  c == '\n' || c == '\r' || c == '\u2028' || c == '\u2029'

/-- startsWithL d cs: the delimiter `d` occurs literally at the head of `cs`. -/
def startsWithL : List Char → List Char → Bool
  | [], _ => true
  | _ :: _, [] => false
  | d :: ds, c :: cs => d == c && startsWithL ds cs

/-- Lazy search for the closing delimiter of a `d(.+?)d` regex match: consume at
least one non-line-terminator character, stopping at the first position where
the closing delimiter `d` occurs.  Returns the captured group and the remainder
of the input after the closing delimiter. -/
def findCloseFrom (d : List Char) : List Char → Option (List Char × List Char)
  | [] => none
  | c :: rest =>
    if isLineTerm c then none
    else if startsWithL d rest then some ([c], rest.drop d.length)
    else (findCloseFrom d rest).map (fun p => (c :: p.1, p.2))

/-- Attempt the regex `d(.+?)d` anchored at the head of `cs` (the attempt made at
each scan position of a global replace). -/
def matchPairAt (d cs : List Char) : Option (List Char × List Char) :=
  if startsWithL d cs then findCloseFrom d (cs.drop d.length) else none

/-- Fuel-indexed scanner for the global replace `str.replace(/d(.+?)d/g, m1)`:
at each position try a lazy pair match; on success emit the captured group and
continue after the match, otherwise keep the character and move one position
right.  The fuel only needs to dominate the input length. -/
def replaceAllF (d : List Char) : Nat → List Char → List Char
  | 0, cs => cs
  | _ + 1, [] => []
  | fuel + 1, c :: rest =>
    match matchPairAt d (c :: rest) with
    | some p => p.1 ++ replaceAllF d fuel p.2
    | none => c :: replaceAllF d fuel rest

/-- `str.replace(/d(.+?)d/g, '$1')` for a literal delimiter `d`. -/
def replaceAll (d cs : List Char) : List Char := replaceAllF d cs.length cs

/-- `str.split('\n')` (never returns an empty list). -/
def splitLines : List Char → List (List Char)
  | [] => [[]]
  | c :: rest =>
    if c = '\n' then [] :: splitLines rest
    else
      match splitLines rest with
      | [] => [[c]]
      | l :: ls => (c :: l) :: ls

/-- `lines.join('\n')`. -/
def joinLines : List (List Char) → List Char
  | [] => []
  | [l] => l
  | l :: ls => l ++ '\n' :: joinLines ls

/-- Does the line continue with a whitespace character? -/
def headIsSpace : List Char → Bool
  | [] => false
  | c :: _ => isJsSpace c

/-- `line.replace(/^\s*#{1,6}\s+/, '')`: strip a leading markdown heading
marker.  The `#` run must have length between one and six and be followed by at
least one whitespace character, otherwise backtracking fails and the line is
returned unchanged. -/
def stripHeading (cs : List Char) : List Char :=
  if 1 ≤ ((cs.dropWhile isJsSpace).takeWhile (fun c => c == '#')).length ∧
      ((cs.dropWhile isJsSpace).takeWhile (fun c => c == '#')).length ≤ 6 ∧
      headIsSpace ((cs.dropWhile isJsSpace).dropWhile (fun c => c == '#')) = true then
    ((cs.dropWhile isJsSpace).dropWhile (fun c => c == '#')).dropWhile isJsSpace
  else cs

/-- `line.replace(/^\s*-\s+/, '')`: strip a leading list dash followed by at
least one whitespace character. -/
def stripDash (cs : List Char) : List Char :=
  match cs.dropWhile isJsSpace with
  | '-' :: rest2 => if headIsSpace rest2 = true then rest2.dropWhile isJsSpace else cs
  | _ => cs

/-- Remove the trailing run of whitespace characters. -/
def dropLastWS : List Char → List Char
  | [] => []
  | c :: rest =>
    if dropLastWS rest = [] ∧ isJsSpace c = true then [] else c :: dropLastWS rest

/-- `str.trim()`. -/
def trimChars (cs : List Char) : List Char := dropLastWS (cs.dropWhile isJsSpace)

/-- The `**bold**` delimiter. -/
def starStarD : List Char := ['*', '*']

/-- The `*italic*` delimiter. -/
def starD : List Char := ['*']

/-- The `_italic_` delimiter. -/
def underD : List Char := ['_']

/-- The three sequential inline replacements of `sanitizeAssistantContent`:
`/\*\*(.+?)\*\*/g`, then `/\*(.+?)\*/g`, then `/_(.+?)_/g`, each replaced by
the captured group. -/
def inlineStrip (cs : List Char) : List Char :=
  replaceAll underD (replaceAll starD (replaceAll starStarD cs))

/-- `ChatService.sanitizeAssistantContent` (src/ISSUES.md): return falsy input
unchanged; strip inline bold/italic markers; per line strip a leading heading
marker and then a leading list dash; re-join and trim. -/
def sanitizeAssistantContent (s : String) : String :=
  if s.data = [] then s
  else
    String.mk (trimChars (joinLines ((splitLines (inlineStrip s.data)).map
      (fun l => stripDash (stripHeading l)))))

/-! Lemmas about the sanitizer. -/

theorem startsWithL_head_mem {c : Char} {d cs : List Char}
    (h : startsWithL (c :: d) cs = true) : c ∈ cs := by
  cases cs with
  | nil => simp [startsWithL] at h
  | cons x xs =>
    simp only [startsWithL, Bool.and_eq_true, beq_iff_eq] at h
    rw [h.1]
    exact List.mem_cons_self x xs

theorem findCloseFrom_head_mem {c : Char} {d : List Char} :
    ∀ {cs : List Char} {p : List Char × List Char},
      findCloseFrom (c :: d) cs = some p → c ∈ cs := by
  intro cs
  induction cs with
  | nil => intro p h; simp [findCloseFrom] at h
  | cons x xs ih =>
    intro p h
    simp only [findCloseFrom] at h
    by_cases h1 : isLineTerm x = true
    · simp [h1] at h
    · simp only [h1, Bool.false_eq_true, if_false] at h
      by_cases h2 : startsWithL (c :: d) xs = true
      · exact List.mem_cons_of_mem x (startsWithL_head_mem h2)
      · simp only [h2, Bool.false_eq_true, if_false] at h
        obtain ⟨q, hq, -⟩ := Option.map_eq_some'.mp h
        exact List.mem_cons_of_mem x (ih hq)

theorem replaceAllF_id_of_head_not_mem {c : Char} {d : List Char} :
    ∀ (fuel : Nat) (cs : List Char), c ∉ cs → replaceAllF (c :: d) fuel cs = cs := by
  intro fuel
  induction fuel with
  | zero => intro cs _; rfl
  | succ n ih =>
    intro cs hc
    cases cs with
    | nil => rfl
    | cons x xs =>
      have hcx : (c == x) = false :=
        beq_eq_false_iff_ne.mpr (fun h => hc (h ▸ List.mem_cons_self x xs))
      have hm : matchPairAt (c :: d) (x :: xs) = none := by
        simp [matchPairAt, startsWithL, hcx]
      simp only [replaceAllF, hm]
      rw [ih xs (fun hmm => hc (List.mem_cons_of_mem x hmm))]

theorem replaceAll_id_of_head_not_mem {c : Char} {d cs : List Char} (hc : c ∉ cs) :
    replaceAll (c :: d) cs = cs :=
  replaceAllF_id_of_head_not_mem cs.length cs hc

theorem matchPairAt_single_count {k : Char} {cs : List Char} {p : List Char × List Char}
    (h : matchPairAt [k] cs = some p) : 2 ≤ cs.count k := by
  unfold matchPairAt at h
  by_cases hs : startsWithL [k] cs = true
  · rw [if_pos hs] at h
    cases cs with
    | nil => simp [startsWithL] at hs
    | cons x xs =>
      simp only [startsWithL, Bool.and_eq_true, beq_iff_eq] at hs
      have hx : k = x := hs.1
      have hmem : k ∈ xs := findCloseFrom_head_mem h
      have h1 : 1 ≤ xs.count k := List.count_pos_iff.mpr hmem
      subst hx
      rw [List.count_cons_self]
      omega
  · rw [if_neg hs] at h
    exact absurd h (by simp)

theorem matchPairAt_double_count {k : Char} {cs : List Char} {p : List Char × List Char}
    (h : matchPairAt [k, k] cs = some p) : 2 ≤ cs.count k := by
  unfold matchPairAt at h
  by_cases hs : startsWithL [k, k] cs = true
  · cases cs with
    | nil => simp [startsWithL] at hs
    | cons x xs =>
      cases xs with
      | nil => simp [startsWithL] at hs
      | cons y ys =>
        simp only [startsWithL, Bool.and_eq_true, beq_iff_eq] at hs
        have hxk : k = x := hs.1
        have hyk : k = y := hs.2.1
        subst hxk
        subst hyk
        rw [List.count_cons_self, List.count_cons_self]
        omega
  · rw [if_neg hs] at h
    exact absurd h (by simp)

theorem replaceAllF_id_of_count {k : Char} {d : List Char}
    (H : ∀ cs : List Char, ∀ p, matchPairAt d cs = some p → 2 ≤ cs.count k) :
    ∀ (fuel : Nat) (cs : List Char), cs.count k ≤ 1 → replaceAllF d fuel cs = cs := by
  intro fuel
  induction fuel with
  | zero => intro cs _; rfl
  | succ n ih =>
    intro cs hc
    cases cs with
    | nil => rfl
    | cons x xs =>
      have hm : matchPairAt d (x :: xs) = none := by
        cases hmp : matchPairAt d (x :: xs) with
        | none => rfl
        | some p => exact absurd (H _ _ hmp) (by omega)
      simp only [replaceAllF, hm]
      have hxs : xs.count k ≤ 1 :=
        le_trans (List.count_le_count_cons k x xs) hc
      rw [ih xs hxs]

theorem replaceAll_id_of_count {k : Char} {d cs : List Char}
    (H : ∀ cs : List Char, ∀ p, matchPairAt d cs = some p → 2 ≤ cs.count k)
    (hc : cs.count k ≤ 1) : replaceAll d cs = cs :=
  replaceAllF_id_of_count H cs.length cs hc

theorem inlineStrip_id_of_unpaired {cs : List Char}
    (h1 : cs.count '*' ≤ 1) (h2 : cs.count '_' ≤ 1) : inlineStrip cs = cs := by
  unfold inlineStrip
  rw [show starStarD = ['*', '*'] from rfl, show starD = ['*'] from rfl,
    show underD = ['_'] from rfl]
  rw [replaceAll_id_of_count (fun cs p h => matchPairAt_double_count h) h1,
    replaceAll_id_of_count (fun cs p h => matchPairAt_single_count h) h1,
    replaceAll_id_of_count (fun cs p h => matchPairAt_single_count h) h2]

theorem splitLines_ne_nil (cs : List Char) : splitLines cs ≠ [] := by
  cases cs with
  | nil => simp [splitLines]
  | cons c rest =>
    simp only [splitLines]
    by_cases h : c = '\n'
    · simp [h]
    · simp only [h, if_false]
      cases splitLines rest <;> simp

theorem joinLines_splitLines (cs : List Char) : joinLines (splitLines cs) = cs := by
  induction cs with
  | nil => rfl
  | cons c rest ih =>
    simp only [splitLines]
    by_cases h : c = '\n'
    · rw [if_pos h]
      cases hs : splitLines rest with
      | nil => exact absurd hs (splitLines_ne_nil rest)
      | cons l ls =>
        rw [h]
        show [] ++ '\n' :: joinLines (l :: ls) = '\n' :: rest
        rw [← hs, ih]
        rfl
    · rw [if_neg h]
      cases hs : splitLines rest with
      | nil => exact absurd hs (splitLines_ne_nil rest)
      | cons l ls =>
        cases ls with
        | nil =>
          show joinLines [c :: l] = c :: rest
          rw [hs] at ih
          have hl : l = rest := ih
          show c :: l = c :: rest
          rw [hl]
        | cons l2 ls2 =>
          show (c :: l) ++ '\n' :: joinLines (l2 :: ls2) = c :: rest
          rw [hs] at ih
          have ih2 : l ++ '\n' :: joinLines (l2 :: ls2) = rest := ih
          rw [List.cons_append, ih2]

theorem map_id_of_mem {α : Type} (f : α → α) :
    ∀ (l : List α), (∀ x ∈ l, f x = x) → l.map f = l := by
  intro l h
  induction l with
  | nil => rfl
  | cons x xs ih =>
    simp only [List.map_cons]
    rw [h x (List.mem_cons_self x xs), ih (fun y hy => h y (List.mem_cons_of_mem x hy))]

theorem length_dropWhile_le (p : Char → Bool) (l : List Char) :
    (l.dropWhile p).length ≤ l.length := by
  induction l with
  | nil => simp
  | cons x xs ih =>
    by_cases h : p x = true
    · simp only [List.dropWhile_cons, h, if_true, List.length_cons]
      omega
    · simp [List.dropWhile_cons, h]

theorem dropWhile_idem (p : Char → Bool) (l : List Char) :
    (l.dropWhile p).dropWhile p = l.dropWhile p := by
  induction l with
  | nil => rfl
  | cons x xs ih =>
    by_cases h : p x = true <;> simp [List.dropWhile_cons, h, ih]

theorem dropLastWS_idem (l : List Char) : dropLastWS (dropLastWS l) = dropLastWS l := by
  induction l with
  | nil => rfl
  | cons c rest ih =>
    simp only [dropLastWS]
    by_cases h : dropLastWS rest = [] ∧ isJsSpace c = true
    · rw [if_pos h]; rfl
    · rw [if_neg h]
      simp only [dropLastWS, ih]
      rw [if_neg h]

theorem dropWhile_dropLastWS (l : List Char) (h : l.dropWhile isJsSpace = l) :
    (dropLastWS l).dropWhile isJsSpace = dropLastWS l := by
  cases l with
  | nil => rfl
  | cons c rest =>
    have hc : isJsSpace c = false := by
      by_cases hcc : isJsSpace c = true
      · exfalso
        rw [List.dropWhile_cons, if_pos hcc] at h
        have h1 : (rest.dropWhile isJsSpace).length ≤ rest.length :=
          length_dropWhile_le isJsSpace rest
        have h2 : (rest.dropWhile isJsSpace).length = rest.length + 1 := by
          rw [h]; simp
        omega
      · simpa using hcc
    simp only [dropLastWS]
    rw [if_neg (by simp [hc])]
    rw [List.dropWhile_cons, if_neg (by simp [hc])]

theorem trimChars_idem (cs : List Char) : trimChars (trimChars cs) = trimChars cs := by
  unfold trimChars
  rw [dropWhile_dropLastWS _ (dropWhile_idem _ _), dropLastWS_idem]

/-- Claim C4 (counterexample): the response sanitizer is not idempotent.  On the
single-line input `"- # Title"` the first pass strips only the leading list
dash (the heading pattern does not match a line starting with a dash), leaving
`"# Title"`; a second pass then strips the now-leading heading marker. -/
theorem sanitizeAssistantContent_not_idempotent :
    sanitizeAssistantContent (sanitizeAssistantContent "- # Title") ≠
      sanitizeAssistantContent "- # Title" := by decide

/-- Claim C4 (amended): sanitizing once is a fixpoint of the sanitizer whenever
the sanitized output contains no asterisk and no underscore and none of its
lines still begins with a heading or list-dash marker; and the inline
replacements leave any string containing at most one asterisk and at most one
underscore (unmatched markers inside words) unchanged.  Unconditional
idempotence fails, see `sanitizeAssistantContent_not_idempotent`. -/
theorem sanitizeAssistantContent_idempotent_amended :
    (∀ s : String,
      (∀ c ∈ (sanitizeAssistantContent s).data, c ≠ '*' ∧ c ≠ '_') →
      (∀ l ∈ splitLines (sanitizeAssistantContent s).data, stripDash (stripHeading l) = l) →
      sanitizeAssistantContent (sanitizeAssistantContent s) = sanitizeAssistantContent s) ∧
    (∀ s : String, s.data.count '*' ≤ 1 → s.data.count '_' ≤ 1 →
      inlineStrip s.data = s.data) := by
  constructor
  · intro s h1 h2
    set y := sanitizeAssistantContent s with hy
    show sanitizeAssistantContent y = y
    simp only [sanitizeAssistantContent]
    by_cases hd : y.data = []
    · rw [if_pos hd]
    · rw [if_neg hd]
      have h1s : '*' ∉ y.data := fun hm => ((h1 _ hm).1 rfl)
      have h1u : '_' ∉ y.data := fun hm => ((h1 _ hm).2 rfl)
      have e1 : inlineStrip y.data = y.data := by
        unfold inlineStrip
        rw [show starStarD = '*' :: ['*'] from rfl, replaceAll_id_of_head_not_mem h1s,
          show starD = '*' :: ([] : List Char) from rfl, replaceAll_id_of_head_not_mem h1s,
          show underD = '_' :: ([] : List Char) from rfl, replaceAll_id_of_head_not_mem h1u]
      rw [e1, map_id_of_mem _ _ h2, joinLines_splitLines]
      have e2 : trimChars y.data = y.data := by
        by_cases hs : s.data = []
        · exfalso
          apply hd
          rw [hy]
          simp [sanitizeAssistantContent, hs]
        · have hv : y.data = trimChars (joinLines ((splitLines (inlineStrip s.data)).map
              (fun l => stripDash (stripHeading l)))) := by
            rw [hy]
            simp [sanitizeAssistantContent, hs]
          rw [hv, trimChars_idem]
      rw [e2]
  · intro s h1 h2
    exact inlineStrip_id_of_unpaired h1 h2

/-- Witness for the amended sanitizer claim, at the concrete inputs
`"**Hello** _world_\n# Title\n- item"` (one pass removes every marker, a second
pass changes nothing) and `"foo_bar"` (a single unmatched underscore inside a
word is preserved by the inline replacements). -/
theorem sanitizeAssistantContent_idempotent_amended_witness :
    sanitizeAssistantContent (sanitizeAssistantContent "**Hello** _world_\n# Title\n- item") =
        sanitizeAssistantContent "**Hello** _world_\n# Title\n- item" ∧
      inlineStrip ("foo_bar" : String).data = ("foo_bar" : String).data :=
  ⟨sanitizeAssistantContent_idempotent_amended.1 "**Hello** _world_\n# Title\n- item"
      (by decide) (by decide),
    sanitizeAssistantContent_idempotent_amended.2 "foo_bar" (by decide) (by decide)⟩

/-! The database model.  Ids and timestamps are natural numbers drawn from one
monotone counter `nextId`; every insert stamps the new row with the current
counter value and increments it, so ids are globally unique and `createdAt`
strictly increases in insertion order, as with generated cuids and row
creation times. -/

/-- A `ChatSession` row. -/
structure ChatSession where
  id : Nat
  userId : String
  title : String
  createdAt : Nat
  deriving DecidableEq

/-- A `ChatMessage` row. -/
structure ChatMessage where
  id : Nat
  sessionId : Nat
  role : String
  content : String
  createdAt : Nat
  deriving DecidableEq

/-- The fund fields selected by the document query (`name`, `code`). -/
structure FundRef where
  name : String
  code : String
  deriving DecidableEq

/-- A `Document` row with the fields read by the chat service.  `periodStart`
and `periodEnd` are epoch milliseconds. -/
structure Document where
  id : String
  title : String
  fundId : String
  fund : Option FundRef
  type : String
  status : String
  periodStart : Nat
  periodEnd : Nat
  description : Option String
  deriving DecidableEq

/-- The relational store, with the insertion counter. -/
structure DB where
  nextId : Nat
  sessions : List ChatSession
  messages : List ChatMessage
  documents : List Document
  deriving DecidableEq

/-- Well-formedness of a database state: every session id and every message's
session reference are below the insertion counter, and session ids are
pairwise distinct. -/
def WF (db : DB) : Prop :=
  (∀ s ∈ db.sessions, s.id < db.nextId) ∧
  (∀ m ∈ db.messages, m.sessionId < db.nextId) ∧
  (db.sessions.map (fun s => s.id)).Nodup

/-- Insert into a sorted-by-`createdAt` ascending list (stable). -/
def insertByTime (m : ChatMessage) : List ChatMessage → List ChatMessage
  | [] => [m]
  | x :: xs => if m.createdAt ≤ x.createdAt then m :: x :: xs else x :: insertByTime m xs

/-- `orderBy: { createdAt: 'asc' }` on messages. -/
def sortByTimeAsc : List ChatMessage → List ChatMessage
  | [] => []
  | x :: xs => insertByTime x (sortByTimeAsc xs)

/-- Insert into a sorted-by-`createdAt` descending list (stable). -/
def insertSessionDesc (s : ChatSession) : List ChatSession → List ChatSession
  | [] => [s]
  | x :: xs => if x.createdAt ≤ s.createdAt then s :: x :: xs else x :: insertSessionDesc s xs

/-- `orderBy: { createdAt: 'desc' }` on sessions. -/
def sortSessionsDesc : List ChatSession → List ChatSession
  | [] => []
  | x :: xs => insertSessionDesc x (sortSessionsDesc xs)

/-! The chat service operations (`src/backend/src/chat/chat.service.ts`). -/

/-- `listSessions`: all sessions of the user, newest first, each with the id
list of its messages (the `select` projection keeps id, title, timestamps and
message ids; we return the session row paired with the message ids). -/
def listSessions (db : DB) (userId : String) : List (ChatSession × List Nat) :=
  (sortSessionsDesc (db.sessions.filter (fun s => s.userId == userId))).map
    (fun s => (s, (db.messages.filter (fun m => m.sessionId == s.id)).map (fun m => m.id)))

/-- `getSession`: the first session with the given id owned by the user, with
its messages in ascending creation order; `null` (here `none`) otherwise. -/
def getSession (db : DB) (userId : String) (sessionId : Nat) :
    Option (ChatSession × List ChatMessage) :=
  match db.sessions.find? (fun s => s.id == sessionId && s.userId == userId) with
  | none => none
  | some s => some (s, sortByTimeAsc (db.messages.filter (fun m => m.sessionId == sessionId)))

/-- `deleteSession`: if a session with this id is owned by the user, delete all
its messages and then the session row and report success; otherwise return
without changing anything (the Boolean mirrors `{ success: true }` versus the
bare `return`). -/
def deleteSession (db : DB) (userId : String) (sessionId : Nat) : DB × Bool :=
  match db.sessions.find? (fun s => s.id == sessionId && s.userId == userId) with
  | none => (db, false)
  | some _ =>
    ({ db with
        messages := db.messages.filter (fun m => !(m.sessionId == sessionId)),
        sessions := db.sessions.filter (fun s => !(s.id == sessionId)) }, true)

/-! `sendMessage` and its request/response data. -/

/-- The body of `POST /chat/send` (`SendChatDto`). -/
structure SendDto where
  message : String
  sessionId : Option Nat
  documentIds : Option (List String)
  deriving DecidableEq

/-- The authenticated caller as injected by the guard. -/
structure UserCtx where
  id : String
  email : String
  role : String
  name : String
  deriving DecidableEq

/-- The service configuration read once at construction: `OPENROUTER_API_KEY`
(empty string when unset) and `OPENROUTER_MODEL`. -/
structure Config where
  openRouterApiKey : String
  openRouterModel : String
  deriving DecidableEq

/-- One entry of the `messages` array sent to the provider. -/
structure PayloadMsg where
  role : String
  content : String
  deriving DecidableEq

/-- The observable outcome of the single `axios.post` call: either an HTTP
success carrying `choices[0].message.content` when that path exists in the
response body (`none` models a malformed or contentless 2xx body), or a thrown
failure (timeout, transport error, non-2xx status) carrying its detail. -/
inductive ProviderResult where
  | ok (content : Option String)
  | err (detail : String)
  deriving DecidableEq

/-- The two exception classes thrown by `sendMessage`. -/
inductive SendError where
  | unauthorized (msg : String)
  | internal (msg : String)
  deriving DecidableEq

/-- The JSON object returned on success. -/
structure SendSuccess where
  sessionId : Nat
  sessionTitle : String
  userMessage : ChatMessage
  assistantMessage : ChatMessage
  deriving DecidableEq

deriving instance DecidableEq for Except

/-- The full observable effect of one `sendMessage` invocation: the final
database state, the payload built for the provider (empty on the fail-fast
path), how many outbound provider calls were made, and the returned value or
thrown error. -/
structure SendResult where
  db : DB
  payload : List PayloadMsg
  providerCalls : Nat
  result : Except SendError SendSuccess
  deriving DecidableEq

/-- `prisma.chatSession.create` with the insertion counter supplying id and
`createdAt`. -/
def createSession (db : DB) (userId title : String) : DB × ChatSession :=
  (⟨db.nextId + 1, db.sessions ++ [⟨db.nextId, userId, title, db.nextId⟩],
      db.messages, db.documents⟩,
    ⟨db.nextId, userId, title, db.nextId⟩)

/-- `prisma.chatMessage.create` with the insertion counter supplying id and
`createdAt`. -/
def createMessage (db : DB) (sessionId : Nat) (role content : String) : DB × ChatMessage :=
  (⟨db.nextId + 1, db.sessions,
      db.messages ++ [⟨db.nextId, sessionId, role, content, db.nextId⟩], db.documents⟩,
    ⟨db.nextId, sessionId, role, content, db.nextId⟩)

/-- `dto.message.slice(0, 80) || 'New Chat'`: the first eighty characters of
the raw (untrimmed) message, or `"New Chat"` when that slice is empty. -/
def titleSlice (msg : String) : String :=
  if msg.data.take 80 = [] then "New Chat" else String.mk (msg.data.take 80)

/-- Look up a caller-supplied session id scoped to the user
(`findFirst({ where: { id, userId } })`); absent id resolves to nothing. -/
def resolveSession (db : DB) (userId : String) (sessionId : Option Nat) :
    Option ChatSession :=
  match sessionId with
  | none => none
  | some sid => db.sessions.find? (fun s => s.id == sid && s.userId == userId)

/-- The session-resolution step of `sendMessage`: reuse an owned session or
silently fall back to creating a fresh one titled from the message.  Returns
the updated store, the resolved session id and the session title. -/
def sessionStep (db : DB) (userId : String) (dto : SendDto) : DB × Nat × String :=
  match resolveSession db userId dto.sessionId with
  | some s => (db, s.id, s.title)
  | none =>
    ((createSession db userId (titleSlice dto.message)).1,
      (createSession db userId (titleSlice dto.message)).2.id,
      titleSlice dto.message)

/-- `findMany({ where: { sessionId }, orderBy: { createdAt: 'asc' }, take: 20 })`:
the first twenty messages of the session in ascending creation order. -/
def recentHistory (db : DB) (sessionId : Nat) : List ChatMessage :=
  (sortByTimeAsc (db.messages.filter (fun m => m.sessionId == sessionId))).take 20

/-- `epoch-milliseconds → Date.prototype.toISOString()` helpers: zero-padding. -/
def padNum (width n : Nat) : String :=
  String.mk (List.replicate (width - (toString n).data.length) '0') ++ toString n

/-- Proleptic-Gregorian civil date from days since 1970-01-01 (non-negative). -/
def civilFromDays (days : Nat) : Nat × Nat × Nat :=
  let z := days + 719468
  let era := z / 146097
  let doe := z % 146097
  let yoe := (doe - doe / 1460 + doe / 36524 - doe / 146096) / 365
  let y := yoe + era * 400
  let doy := doe - (365 * yoe + yoe / 4 - yoe / 100)
  let mp := (5 * doy + 2) / 153
  let d := doy - (153 * mp + 2) / 5 + 1
  let m := if mp < 10 then mp + 3 else mp - 9
  (if m ≤ 2 then y + 1 else y, m, d)

/-- `Date.prototype.toISOString()` for a non-negative epoch-millisecond
timestamp: `YYYY-MM-DDTHH:mm:ss.sssZ`. -/
def toIsoString (ms : Nat) : String :=
  padNum 4 (civilFromDays (ms / 86400000)).1 ++ "-" ++
  padNum 2 (civilFromDays (ms / 86400000)).2.1 ++ "-" ++
  padNum 2 (civilFromDays (ms / 86400000)).2.2 ++ "T" ++
  padNum 2 (ms % 86400000 / 3600000) ++ ":" ++
  padNum 2 (ms % 3600000 / 60000) ++ ":" ++
  padNum 2 (ms % 60000 / 1000) ++ "." ++
  padNum 3 (ms % 1000) ++ "Z"

/-- The fund label of a document block: `name (code)` when the fund relation is
present, the raw `fundId` otherwise. -/
def fundLabel (doc : Document) : String :=
  match doc.fund with
  | some f => f.name ++ " (" ++ f.code ++ ")"
  | none => doc.fundId

/-- One rendered document block of the documents context (template literal of
`sendMessage`, including its trailing newline; the period separator is an
en dash). -/
def renderDoc (doc : Document) : String :=
  "- Title: " ++ doc.title ++
  "\n  Fund: " ++ fundLabel doc ++
  "\n  Type: " ++ doc.type ++
  "\n  Status: " ++ doc.status ++
  "\n  Period: " ++ toIsoString doc.periodStart ++ " – " ++ toIsoString doc.periodEnd ++
  "\n  Description: " ++ (doc.description.getD "n/a") ++ "\n"

/-- `findMany({ where: { id: { in: ids } } })` on documents: table order,
missing ids silently contribute nothing. -/
def matchedDocs (db : DB) (ids : List String) : List Document :=
  db.documents.filter (fun d => ids.contains d.id)

/-- The secondary system instruction assembled from the fetched documents. -/
def documentsContextFor (docs : List Document) : String :=
  "The user has selected the following compliance documents to discuss:\n" ++
  String.intercalate "\n" (docs.map renderDoc) ++
  "\nUse ONLY this information plus the conversation history to answer questions, and clearly say when information is not available in these documents."

/-- The `documentsContext` accumulator of `sendMessage`: empty unless the dto
carries a non-empty id list that matches at least one document. -/
def documentsContext (db : DB) (dto : SendDto) : String :=
  match dto.documentIds with
  | none => ""
  | some ids =>
    if 0 < ids.length then
      if 0 < (matchedDocs db ids).length then documentsContextFor (matchedDocs db ids) else ""
    else ""

/-- The fixed primary system prompt of `sendMessage`. -/
def systemPrompt : String :=
  "You are an AI assistant helping with investment fund compliance documents inside an internal tool called Audit Vault.\n- Be precise and conservative: never invent document contents.\n- When asked about compliance, base your answers ONLY on the provided document metadata and user messages.\n- If something is unclear or not in the data, explicitly say what is missing."

/-- Forward one stored history message to the provider: any role other than
the string `"assistant"` is sent as `"user"`. -/
def forwardRole (m : ChatMessage) : PayloadMsg :=
  ⟨if m.role == "assistant" then "assistant" else "user", m.content⟩

/-- Assemble the `messages` array: primary system prompt, the documents context
as a second system message when non-empty, then the loaded history. -/
def buildPayload (ctx : String) (recent : List ChatMessage) : List PayloadMsg :=
  [⟨"system", systemPrompt⟩] ++
  (if ctx = "" then [] else [⟨"system", ctx⟩]) ++
  recent.map forwardRole

/-- Everything `sendMessage` does before the `try` block. -/
structure PrepState where
  db : DB
  sessionId : Nat
  sessionTitle : String
  userMessage : ChatMessage
  payload : List PayloadMsg
  deriving DecidableEq

/-- The pre-provider phase of `sendMessage` (after the credential check):
resolve or create the session, persist the user message, load the recent
history, load the optional documents context and build the payload. -/
def sendPrepare (db : DB) (user : UserCtx) (dto : SendDto) : PrepState :=
  ⟨(createMessage (sessionStep db user.id dto).1 (sessionStep db user.id dto).2.1
      "user" dto.message).1,
    (sessionStep db user.id dto).2.1,
    (sessionStep db user.id dto).2.2,
    (createMessage (sessionStep db user.id dto).1 (sessionStep db user.id dto).2.1
      "user" dto.message).2,
    buildPayload
      (documentsContext
        (createMessage (sessionStep db user.id dto).1 (sessionStep db user.id dto).2.1
          "user" dto.message).1 dto)
      (recentHistory
        (createMessage (sessionStep db user.id dto).1 (sessionStep db user.id dto).2.1
          "user" dto.message).1
        (sessionStep db user.id dto).2.1)⟩

/-- The generic user-facing failure message of the catch block. -/
def genericProviderError : String :=
  "Failed to get a response from the AI assistant. Please try again later."

/-- The fallback assistant text used when the response body carries no
`choices[0].message.content`. -/
def fallbackAssistantContent : String := "Sorry, I could not generate a response."

/-- The unauthorized-error message of the credential check. -/
def missingKeyError : String := "OpenRouter API key is not configured on the server"

/-- `ChatService.sendMessage`: fail fast without any effect when the provider
credential is missing; otherwise run the preparation phase, call the provider
once with the assembled payload and either persist the (possibly fallback)
assistant reply and return it, or catch the thrown failure and surface the one
generic service error, keeping the state written so far. -/
def sendMessage (cfg : Config) (db : DB) (user : UserCtx) (dto : SendDto)
    (provider : List PayloadMsg → ProviderResult) : SendResult :=
  if cfg.openRouterApiKey = "" then
    ⟨db, [], 0, Except.error (SendError.unauthorized missingKeyError)⟩
  else
    match provider (sendPrepare db user dto).payload with
    | ProviderResult.ok content =>
      ⟨(createMessage (sendPrepare db user dto).db (sendPrepare db user dto).sessionId
          "assistant" (content.getD fallbackAssistantContent)).1,
        (sendPrepare db user dto).payload, 1,
        Except.ok ⟨(sendPrepare db user dto).sessionId, (sendPrepare db user dto).sessionTitle,
          (sendPrepare db user dto).userMessage,
          (createMessage (sendPrepare db user dto).db (sendPrepare db user dto).sessionId
            "assistant" (content.getD fallbackAssistantContent)).2⟩⟩
    | ProviderResult.err _ =>
      ⟨(sendPrepare db user dto).db, (sendPrepare db user dto).payload, 1,
        Except.error (SendError.internal genericProviderError)⟩

/-! Concrete fixtures used by witnesses and counterexamples. -/

/-- A configuration with a provider credential present. -/
def cfgW : Config := ⟨"test-key", "openai/gpt-4o-mini"⟩

/-- A configuration with the provider credential missing. -/
def cfgNoKey : Config := ⟨"", "openai/gpt-4o-mini"⟩

/-- A caller. -/
def userW : UserCtx := ⟨"alice", "alice@example.com", "ADMIN", "Alice"⟩

/-- The empty store. -/
def dbEmpty : DB := ⟨0, [], [], []⟩

/-- A provider that always throws. -/
def provErr : List PayloadMsg → ProviderResult := fun _ => ProviderResult.err "boom"

/-- A provider that replies with a well-formed body. -/
def provOk : List PayloadMsg → ProviderResult := fun _ => ProviderResult.ok (some "a reply")

/-- A provider that returns 2xx with a body carrying no
`choices[0].message.content`. -/
def provMalformed : List PayloadMsg → ProviderResult := fun _ => ProviderResult.ok none

/-- The i-th stored history message of the C1 scenario. -/
def histMsgC1 (i : Nat) : ChatMessage := ⟨i + 1, 0, "user", "m" ++ toString (i + 1), i + 1⟩

/-- A store holding one session of the caller that already contains 21
messages `m1 … m21` in creation order. -/
def dbC1 : DB := ⟨22, [⟨0, "alice", "t0", 0⟩], (List.range 21).map histMsgC1, []⟩

/-- The C1 request: a new message into the existing session. -/
def dtoC1 : SendDto := ⟨"question", some 0, none⟩

/-! Helper lemmas about the service operations. -/

theorem string_data_eq_nil_iff (s : String) : s.data = [] ↔ s = "" := by
  constructor
  · intro h
    cases s with
    | mk d => cases h; rfl
  · intro h
    rw [h]

theorem titleSlice_eq (msg : String) :
    titleSlice msg = if msg = "" then "New Chat" else String.mk (msg.data.take 80) := by
  unfold titleSlice
  by_cases hm : msg = ""
  · subst hm
    rfl
  · rw [if_neg hm, if_neg ?_]
    intro h
    rcases List.take_eq_nil_iff.mp h with h0 | hnil
    · exact absurd h0 (by decide)
    · exact hm ((string_data_eq_nil_iff msg).mp hnil)

/-- Claim C7: with the provider credential missing, `sendMessage` throws the
authorization failure, performs no database write and makes no outbound
provider call. -/
theorem missing_key_fails_fast (cfg : Config) (db : DB) (user : UserCtx) (dto : SendDto)
    (provider : List PayloadMsg → ProviderResult) (hkey : cfg.openRouterApiKey = "") :
    (sendMessage cfg db user dto provider).db = db ∧
    (sendMessage cfg db user dto provider).providerCalls = 0 ∧
    (sendMessage cfg db user dto provider).result =
      Except.error (SendError.unauthorized missingKeyError) := by
  simp [sendMessage, hkey]

/-- Witness for C7 at a concrete store and request. -/
theorem missing_key_fails_fast_witness :
    cfgNoKey.openRouterApiKey = "" ∧
    ((sendMessage cfgNoKey dbEmpty userW ⟨"hello", none, none⟩ provErr).db = dbEmpty ∧
      (sendMessage cfgNoKey dbEmpty userW ⟨"hello", none, none⟩ provErr).providerCalls = 0 ∧
      (sendMessage cfgNoKey dbEmpty userW ⟨"hello", none, none⟩ provErr).result =
        Except.error (SendError.unauthorized missingKeyError)) :=
  ⟨rfl, missing_key_fails_fast cfgNoKey dbEmpty userW ⟨"hello", none, none⟩ provErr rfl⟩

/-- Claim C5: past the credential check, the inbound user message is persisted
in the state from which the provider payload is computed, and it is still
present in the final state for every provider outcome, including thrown
failures. -/
theorem user_message_persisted (cfg : Config) (db : DB) (user : UserCtx) (dto : SendDto)
    (provider : List PayloadMsg → ProviderResult) (hkey : cfg.openRouterApiKey ≠ "") :
    (sendPrepare db user dto).userMessage ∈ (sendPrepare db user dto).db.messages ∧
    (sendPrepare db user dto).userMessage.role = "user" ∧
    (sendPrepare db user dto).userMessage.content = dto.message ∧
    (sendPrepare db user dto).userMessage.sessionId = (sendPrepare db user dto).sessionId ∧
    (sendPrepare db user dto).userMessage ∈ (sendMessage cfg db user dto provider).db.messages := by
  refine ⟨?_, rfl, rfl, rfl, ?_⟩
  · simp [sendPrepare, createMessage]
  · cases hp : provider (sendPrepare db user dto).payload with
    | ok c =>
      simp only [sendMessage, if_neg hkey, hp]
      simp [createMessage, sendPrepare]
    | err d =>
      simp only [sendMessage, if_neg hkey, hp]
      simp [createMessage, sendPrepare]

/-- Witness for C5 at a concrete request with a failing provider. -/
theorem user_message_persisted_witness :
    cfgW.openRouterApiKey ≠ "" ∧
    ((sendPrepare dbEmpty userW ⟨"hello", none, none⟩).userMessage ∈
        (sendPrepare dbEmpty userW ⟨"hello", none, none⟩).db.messages ∧
      (sendPrepare dbEmpty userW ⟨"hello", none, none⟩).userMessage.role = "user" ∧
      (sendPrepare dbEmpty userW ⟨"hello", none, none⟩).userMessage.content = "hello" ∧
      (sendPrepare dbEmpty userW ⟨"hello", none, none⟩).userMessage.sessionId =
        (sendPrepare dbEmpty userW ⟨"hello", none, none⟩).sessionId ∧
      (sendPrepare dbEmpty userW ⟨"hello", none, none⟩).userMessage ∈
        (sendMessage cfgW dbEmpty userW ⟨"hello", none, none⟩ provErr).db.messages) :=
  ⟨by decide, user_message_persisted cfgW dbEmpty userW ⟨"hello", none, none⟩ provErr (by decide)⟩

/-- Claim C6 (counterexample): a malformed provider success (2xx body without
`choices[0].message.content`) is not surfaced as the generic service error; it
becomes a normal success persisting the fixed fallback assistant text. -/
theorem malformed_response_is_success :
    (sendMessage cfgW dbEmpty userW ⟨"hello", none, none⟩ provMalformed).result =
      Except.ok ⟨0, "hello", ⟨1, 0, "user", "hello", 1⟩,
        ⟨2, 0, "assistant", fallbackAssistantContent, 2⟩⟩ ∧
    (sendMessage cfgW dbEmpty userW ⟨"hello", none, none⟩ provMalformed).result ≠
      Except.error (SendError.internal genericProviderError) := by decide

/-- Claim C6 (amended): every thrown provider failure (timeout, transport
error, non-2xx) is surfaced as the one generic service error; the outcome is
identical whatever the upstream failure detail (no detail leaks), exactly one
provider call is made (no retry), and the state written before the call is
kept.  A malformed 2xx body is not an error, see
`malformed_response_is_success`. -/
theorem provider_failure_generic (cfg : Config) (db : DB) (user : UserCtx) (dto : SendDto)
    (d1 d2 : String) (hkey : cfg.openRouterApiKey ≠ "") :
    sendMessage cfg db user dto (fun _ => ProviderResult.err d1) =
      sendMessage cfg db user dto (fun _ => ProviderResult.err d2) ∧
    (sendMessage cfg db user dto (fun _ => ProviderResult.err d1)).result =
      Except.error (SendError.internal genericProviderError) ∧
    (sendMessage cfg db user dto (fun _ => ProviderResult.err d1)).providerCalls = 1 ∧
    (sendMessage cfg db user dto (fun _ => ProviderResult.err d1)).db =
      (sendPrepare db user dto).db := by
  simp [sendMessage, hkey]

/-- Witness for the amended C6 at concrete failure details. -/
theorem provider_failure_generic_witness :
    cfgW.openRouterApiKey ≠ "" ∧
    (sendMessage cfgW dbEmpty userW ⟨"hi", none, none⟩ (fun _ => ProviderResult.err "timeout of 30000ms exceeded") =
        sendMessage cfgW dbEmpty userW ⟨"hi", none, none⟩ (fun _ => ProviderResult.err "status 500") ∧
      (sendMessage cfgW dbEmpty userW ⟨"hi", none, none⟩ (fun _ => ProviderResult.err "timeout of 30000ms exceeded")).result =
        Except.error (SendError.internal genericProviderError) ∧
      (sendMessage cfgW dbEmpty userW ⟨"hi", none, none⟩ (fun _ => ProviderResult.err "timeout of 30000ms exceeded")).providerCalls = 1 ∧
      (sendMessage cfgW dbEmpty userW ⟨"hi", none, none⟩ (fun _ => ProviderResult.err "timeout of 30000ms exceeded")).db =
        (sendPrepare dbEmpty userW ⟨"hi", none, none⟩).db) :=
  ⟨by decide, provider_failure_generic cfgW dbEmpty userW ⟨"hi", none, none⟩
    "timeout of 30000ms exceeded" "status 500" (by decide)⟩

/-- Claim C3 (counterexample): a whitespace-only message is empty after
trimming, so the claim demands the title `"New Chat"`; the code never trims and
titles the new session with the raw whitespace. -/
theorem session_title_untrimmed :
    ((sendMessage cfgW dbEmpty userW ⟨" ", none, none⟩ provErr).db.sessions.map
        (fun s => s.title)) = [" "] ∧
    trimChars ((" " : String).data) = [] ∧
    (" " : String) ≠ "New Chat" := by decide

/-- Claim C3 (amended): when no session id is given or the given id does not
resolve to a session owned by the caller, exactly one new session is created,
owned by the caller, titled with the first eighty characters of the raw
(untrimmed) message, or `"New Chat"` when the message is the empty string. -/
theorem new_session_title (cfg : Config) (db : DB) (user : UserCtx) (dto : SendDto)
    (provider : List PayloadMsg → ProviderResult) (hkey : cfg.openRouterApiKey ≠ "")
    (hres : resolveSession db user.id dto.sessionId = none) :
    ∃ ns : ChatSession,
      (sendMessage cfg db user dto provider).db.sessions = db.sessions ++ [ns] ∧
      ns.userId = user.id ∧
      ns.title = (if dto.message = "" then "New Chat"
        else String.mk (dto.message.data.take 80)) := by
  refine ⟨⟨db.nextId, user.id, titleSlice dto.message, db.nextId⟩, ?_, rfl, titleSlice_eq dto.message⟩
  cases hp : provider (sendPrepare db user dto).payload with
  | ok c =>
    simp only [sendMessage, if_neg hkey, hp]
    simp [sendPrepare, sessionStep, hres, createMessage, createSession]
  | err d =>
    simp only [sendMessage, if_neg hkey, hp]
    simp [sendPrepare, sessionStep, hres, createMessage, createSession]

/-- Witness for the amended C3: an 81-character message is cut to its first 80
characters. -/
theorem new_session_title_witness :
    cfgW.openRouterApiKey ≠ "" ∧
    resolveSession dbEmpty userW.id (none : Option Nat) = none ∧
    (∃ ns : ChatSession,
      (sendMessage cfgW dbEmpty userW
          ⟨String.mk (List.replicate 81 'x'), none, none⟩ provErr).db.sessions =
        dbEmpty.sessions ++ [ns] ∧
      ns.userId = userW.id ∧
      ns.title = (if String.mk (List.replicate 81 'x') = "" then "New Chat"
        else String.mk ((String.mk (List.replicate 81 'x')).data.take 80))) :=
  ⟨by decide, rfl,
    new_session_title cfgW dbEmpty userW ⟨String.mk (List.replicate 81 'x'), none, none⟩
      provErr (by decide) rfl⟩

set_option maxRecDepth 8000 in
/-- Claim C1 (code bug, evaluated at the failing input): with 21 messages
already stored, the payload history is the oldest twenty messages `m1 … m20`;
neither the newest stored message `m21` nor the just-persisted message
`question` is sent to the provider, although the spec requires the most recent
at-most-twenty messages. -/
theorem history_window_keeps_oldest :
    (sendPrepare dbC1 userW dtoC1).payload =
      ⟨"system", systemPrompt⟩ ::
        (List.range 20).map (fun i => ⟨"user", "m" ++ toString (i + 1)⟩) ∧
    (∀ pm ∈ (sendPrepare dbC1 userW dtoC1).payload, pm.content ≠ "question") ∧
    (∀ pm ∈ (sendPrepare dbC1 userW dtoC1).payload, pm.content ≠ "m21") := by decide

theorem sendPrepare_payload (db : DB) (user : UserCtx) (dto : SendDto) :
    (sendPrepare db user dto).payload =
      buildPayload (documentsContext (sendPrepare db user dto).db dto)
        (recentHistory (sendPrepare db user dto).db (sendPrepare db user dto).sessionId) := rfl

theorem sessionStep_documents (db : DB) (uid : String) (dto : SendDto) :
    (sessionStep db uid dto).1.documents = db.documents := by
  unfold sessionStep
  cases resolveSession db uid dto.sessionId <;> simp [createSession]

theorem sendPrepare_documents (db : DB) (user : UserCtx) (dto : SendDto) :
    (sendPrepare db user dto).db.documents = db.documents := by
  simp [sendPrepare, createMessage, sessionStep_documents]

theorem matchedDocs_eq_of_documents {db1 db2 : DB} (ids : List String)
    (h : db1.documents = db2.documents) : matchedDocs db1 ids = matchedDocs db2 ids := by
  simp [matchedDocs, h]

theorem documentsContextFor_ne_empty (docs : List Document) :
    documentsContextFor docs ≠ "" := by
  intro h
  have hd := congrArg String.data h
  simp only [documentsContextFor, String.data_append] at hd
  exact List.cons_ne_nil _ _ hd

theorem matchedDocs_nil (db : DB) : matchedDocs db [] = [] := by
  simp [matchedDocs]

/-- Claim C10: the provider payload is the leading system message or messages
followed exactly by the image of the loaded history under role forwarding, and
role forwarding sends every stored message whose role is not the string
`"assistant"` with role `"user"`, so every non-system payload entry carries
role `"user"` or `"assistant"`. -/
theorem payload_roles (db : DB) (user : UserCtx) (dto : SendDto) :
    (∃ sys : List PayloadMsg,
      (sys = [⟨"system", systemPrompt⟩] ∨
        sys = [⟨"system", systemPrompt⟩,
          ⟨"system", documentsContext (sendPrepare db user dto).db dto⟩]) ∧
      (sendPrepare db user dto).payload =
        sys ++ (recentHistory (sendPrepare db user dto).db
          (sendPrepare db user dto).sessionId).map forwardRole) ∧
    (∀ m : ChatMessage, m.role ≠ "assistant" → (forwardRole m).role = "user") ∧
    (∀ m : ChatMessage, m.role = "assistant" → (forwardRole m).role = "assistant") ∧
    (∀ m : ChatMessage, (forwardRole m).role = "user" ∨ (forwardRole m).role = "assistant") := by
  refine ⟨?_, ?_, ?_, ?_⟩
  · by_cases hc : documentsContext (sendPrepare db user dto).db dto = ""
    · refine ⟨[⟨"system", systemPrompt⟩], Or.inl rfl, ?_⟩
      simp only [sendPrepare] at hc ⊢
      simp [buildPayload, hc]
    · refine ⟨_, Or.inr rfl, ?_⟩
      simp only [sendPrepare] at hc ⊢
      simp [buildPayload, hc]
  · intro m hm
    simp [forwardRole, hm]
  · intro m hm
    simp [forwardRole, hm]
  · intro m
    by_cases hm : m.role = "assistant" <;> simp [forwardRole, hm]

/-- Witness for C10: a stored message with a corrupt role string is forwarded
with role `"user"`, an assistant message keeps its role. -/
theorem payload_roles_witness :
    ((⟨5, 0, "weird", "c", 5⟩ : ChatMessage).role ≠ "assistant" ∧
      (forwardRole ⟨5, 0, "weird", "c", 5⟩).role = "user") ∧
    ((⟨6, 0, "assistant", "c", 6⟩ : ChatMessage).role = "assistant" ∧
      (forwardRole ⟨6, 0, "assistant", "c", 6⟩).role = "assistant") :=
  ⟨⟨by decide, (payload_roles dbEmpty userW ⟨"hi", none, none⟩).2.1 _ (by decide)⟩,
    ⟨rfl, (payload_roles dbEmpty userW ⟨"hi", none, none⟩).2.2.1 _ rfl⟩⟩

/-- Claim C9: when the request carries document ids and at least one id
matches, the payload is the primary system prompt followed by exactly one
secondary system message rendering the matched documents (non-matching ids
dropped by the filter), followed by the forwarded history, whose entries are
never system messages; with no documentIds or no matching id there is no
secondary system message. -/
theorem documents_context_block (db : DB) (user : UserCtx) (msg : String)
    (sid : Option Nat) (ids : List String) :
    (matchedDocs db ids ≠ [] →
      (sendPrepare db user ⟨msg, sid, some ids⟩).payload =
        ⟨"system", systemPrompt⟩ ::
          ⟨"system", documentsContextFor (matchedDocs db ids)⟩ ::
          (recentHistory (sendPrepare db user ⟨msg, sid, some ids⟩).db
            (sendPrepare db user ⟨msg, sid, some ids⟩).sessionId).map forwardRole) ∧
    (matchedDocs db ids = [] →
      (sendPrepare db user ⟨msg, sid, some ids⟩).payload =
        ⟨"system", systemPrompt⟩ ::
          (recentHistory (sendPrepare db user ⟨msg, sid, some ids⟩).db
            (sendPrepare db user ⟨msg, sid, some ids⟩).sessionId).map forwardRole) ∧
    ((sendPrepare db user ⟨msg, sid, none⟩).payload =
      ⟨"system", systemPrompt⟩ ::
        (recentHistory (sendPrepare db user ⟨msg, sid, none⟩).db
          (sendPrepare db user ⟨msg, sid, none⟩).sessionId).map forwardRole) ∧
    (∀ m : ChatMessage, (forwardRole m).role ≠ "system") := by
  have hdocs : (sendPrepare db user ⟨msg, sid, some ids⟩).db.documents = db.documents :=
    sendPrepare_documents db user ⟨msg, sid, some ids⟩
  have hmatch : matchedDocs (sendPrepare db user ⟨msg, sid, some ids⟩).db ids =
      matchedDocs db ids := matchedDocs_eq_of_documents ids hdocs
  refine ⟨?_, ?_, ?_, ?_⟩
  · intro hne
    have hids : ids ≠ [] := by
      intro h0
      rw [h0, matchedDocs_nil] at hne
      exact hne rfl
    have hctx : documentsContext (sendPrepare db user ⟨msg, sid, some ids⟩).db
        ⟨msg, sid, some ids⟩ = documentsContextFor (matchedDocs db ids) := by
      simp only [documentsContext, hmatch]
      rw [if_pos (by
          cases ids with
          | nil => exact absurd rfl hids
          | cons a l => simp),
        if_pos (List.length_pos.mpr hne)]
    rw [sendPrepare_payload, hctx, buildPayload,
      if_neg (documentsContextFor_ne_empty (matchedDocs db ids))]
    rfl
  · intro hnil
    have hctx : documentsContext (sendPrepare db user ⟨msg, sid, some ids⟩).db
        ⟨msg, sid, some ids⟩ = "" := by
      simp only [documentsContext, hmatch, hnil]
      simp
    rw [sendPrepare_payload, hctx, buildPayload, if_pos rfl]
    rfl
  · rw [sendPrepare_payload,
      show documentsContext (sendPrepare db user ⟨msg, sid, none⟩).db ⟨msg, sid, none⟩ = ""
        from rfl,
      buildPayload, if_pos rfl]
    rfl
  · intro m
    by_cases hm : m.role = "assistant" <;> simp [forwardRole, hm]

/-- A document of the store, with a present fund relation and no description. -/
def docW : Document := ⟨"docA", "Q3 Report", "f1", some ⟨"Fund One", "F1"⟩,
  "QUARTERLY_REPORT", "APPROVED", 0, 86400000, none⟩

/-- A store holding one document. -/
def dbDoc : DB := ⟨0, [], [], [docW]⟩

/-- Witness for C9: one existing and one missing document id; the missing id is
dropped and exactly one secondary system message appears after the primary
prompt. -/
theorem documents_context_block_witness :
    matchedDocs dbDoc ["docA", "missing"] ≠ [] ∧
    (sendPrepare dbDoc userW ⟨"Summarize Q3", none, some ["docA", "missing"]⟩).payload =
      ⟨"system", systemPrompt⟩ ::
        ⟨"system", documentsContextFor (matchedDocs dbDoc ["docA", "missing"])⟩ ::
        (recentHistory
          (sendPrepare dbDoc userW ⟨"Summarize Q3", none, some ["docA", "missing"]⟩).db
          (sendPrepare dbDoc userW
            ⟨"Summarize Q3", none, some ["docA", "missing"]⟩).sessionId).map forwardRole :=
  ⟨by decide,
    (documents_context_block dbDoc userW "Summarize Q3" none ["docA", "missing"]).1 (by decide)⟩

/-- Claim C8: deleting an owned session removes all its messages and its row
(everything else preserved), after which re-fetching it yields nothing; for an
id that does not exist or belongs to another user the operation is a no-op
returning without error. -/
theorem delete_session_spec :
    (∀ (db : DB) (uid : String) (s : ChatSession), s ∈ db.sessions → s.userId = uid →
      ((deleteSession db uid s.id).2 = true ∧
        (∀ m ∈ (deleteSession db uid s.id).1.messages, m.sessionId ≠ s.id) ∧
        (∀ t ∈ (deleteSession db uid s.id).1.sessions, t.id ≠ s.id) ∧
        getSession (deleteSession db uid s.id).1 uid s.id = none ∧
        (∀ m ∈ db.messages, m.sessionId ≠ s.id → m ∈ (deleteSession db uid s.id).1.messages) ∧
        (∀ t ∈ db.sessions, t.id ≠ s.id → t ∈ (deleteSession db uid s.id).1.sessions))) ∧
    (∀ (db : DB) (uid : String) (sid : Nat),
      (∀ t ∈ db.sessions, ¬(t.id = sid ∧ t.userId = uid)) →
      deleteSession db uid sid = (db, false)) := by
  constructor
  · intro db uid s hs hu
    obtain ⟨x, hx⟩ : ∃ x, db.sessions.find? (fun t => t.id == s.id && t.userId == uid) = some x := by
      have hsome : (db.sessions.find? (fun t => t.id == s.id && t.userId == uid)).isSome := by
        rw [List.find?_isSome]
        exact ⟨s, hs, by simp [hu]⟩
      exact Option.isSome_iff_exists.mp hsome
    unfold deleteSession
    rw [hx]
    refine ⟨rfl, ?_, ?_, ?_, ?_, ?_⟩
    · intro m hm
      have := (List.mem_filter.mp hm).2
      simpa using this
    · intro t ht
      have := (List.mem_filter.mp ht).2
      simpa using this
    · unfold getSession
      rw [show (List.find?
          (fun t => t.id == s.id && t.userId == uid)
          (List.filter (fun t => !(t.id == s.id)) db.sessions)) = none from ?_]
      · rw [List.find?_eq_none]
        intro t ht
        have := (List.mem_filter.mp ht).2
        simp only [Bool.not_eq_eq_eq_not, Bool.not_true, beq_eq_false_iff_ne] at this
        simp [this]
    · intro m hm hne
      exact List.mem_filter.mpr ⟨hm, by simp [hne]⟩
    · intro t ht hne
      exact List.mem_filter.mpr ⟨ht, by simp [hne]⟩
  · intro db uid sid h
    have hfind : db.sessions.find? (fun t => t.id == sid && t.userId == uid) = none := by
      rw [List.find?_eq_none]
      intro t ht
      simp only [Bool.and_eq_true, beq_iff_eq]
      intro hc
      exact h t ht ⟨hc.1, hc.2⟩
    unfold deleteSession
    rw [hfind]

/-- A store with one session of each of two users and messages in both. -/
def dbTwo : DB :=
  ⟨4, [⟨0, "bob", "bobs chat", 0⟩, ⟨1, "alice", "alices chat", 1⟩],
    [⟨2, 0, "user", "bob msg", 2⟩, ⟨3, 1, "user", "alice msg", 3⟩], []⟩

/-- Witness for C8: deleting Alice's session removes exactly its row and its
message, and the foreign/no-op branch leaves Bob's delete attempt on Alice's
id without effect. -/
theorem delete_session_spec_witness :
    ((⟨1, "alice", "alices chat", 1⟩ : ChatSession) ∈ dbTwo.sessions ∧
      ((deleteSession dbTwo "alice" 1).2 = true ∧
        (∀ m ∈ (deleteSession dbTwo "alice" 1).1.messages, m.sessionId ≠ 1) ∧
        (∀ t ∈ (deleteSession dbTwo "alice" 1).1.sessions, t.id ≠ 1) ∧
        getSession (deleteSession dbTwo "alice" 1).1 "alice" 1 = none ∧
        (∀ m ∈ dbTwo.messages, m.sessionId ≠ 1 → m ∈ (deleteSession dbTwo "alice" 1).1.messages) ∧
        (∀ t ∈ dbTwo.sessions, t.id ≠ 1 → t ∈ (deleteSession dbTwo "alice" 1).1.sessions))) ∧
    ((∀ t ∈ dbTwo.sessions, ¬(t.id = 1 ∧ t.userId = "bob")) ∧
      deleteSession dbTwo "bob" 1 = (dbTwo, false)) :=
  ⟨⟨by decide,
      delete_session_spec.1 dbTwo "alice" ⟨1, "alice", "alices chat", 1⟩ (by decide) rfl⟩,
    ⟨by decide, delete_session_spec.2 dbTwo "bob" 1 (by decide)⟩⟩

theorem mem_insertSessionDesc {a s : ChatSession} {l : List ChatSession} :
    a ∈ insertSessionDesc s l ↔ a = s ∨ a ∈ l := by
  induction l with
  | nil => simp [insertSessionDesc]
  | cons x xs ih =>
    simp only [insertSessionDesc]
    by_cases h : x.createdAt ≤ s.createdAt
    · simp [h, List.mem_cons]
    · simp only [h, if_false, List.mem_cons, ih]
      tauto

theorem mem_sortSessionsDesc {a : ChatSession} {l : List ChatSession} :
    a ∈ sortSessionsDesc l ↔ a ∈ l := by
  induction l with
  | nil => simp [sortSessionsDesc]
  | cons x xs ih => simp [sortSessionsDesc, mem_insertSessionDesc, ih]

/-- All the isolation guarantees one request must give a session `s` of
another user: the read endpoints do not reveal it, deletion by id is a no-op,
and sending a message with its id creates a fresh session of the caller,
leaves `s` and its messages untouched, and builds the history exclusively from
the fresh session (which holds just the new user message). -/
def ForeignIsolation (cfg : Config) (db : DB) (user : UserCtx) (s : ChatSession)
    (msg : String) (docIds : Option (List String))
    (provider : List PayloadMsg → ProviderResult) : Prop :=
  (∀ x ∈ listSessions db user.id, x.1.id ≠ s.id) ∧
  getSession db user.id s.id = none ∧
  deleteSession db user.id s.id = (db, false) ∧
  s ∈ (sendMessage cfg db user ⟨msg, some s.id, docIds⟩ provider).db.sessions ∧
  (sendMessage cfg db user ⟨msg, some s.id, docIds⟩ provider).db.messages.filter
      (fun m => m.sessionId == s.id) =
    db.messages.filter (fun m => m.sessionId == s.id) ∧
  (∃ ns ∈ (sendMessage cfg db user ⟨msg, some s.id, docIds⟩ provider).db.sessions,
    ns.id = db.nextId ∧ ns.userId = user.id ∧ ns.id ≠ s.id) ∧
  recentHistory (sendPrepare db user ⟨msg, some s.id, docIds⟩).db
      (sendPrepare db user ⟨msg, some s.id, docIds⟩).sessionId =
    [(sendPrepare db user ⟨msg, some s.id, docIds⟩).userMessage]

/-- Claim C2: no operation reads, extends or deletes a session owned by a
different user; in particular `sendMessage` with a foreign session id creates
a new session for the caller and never writes into the foreign one. -/
theorem foreign_session_isolated (cfg : Config) (db : DB) (user : UserCtx)
    (s : ChatSession) (msg : String) (docIds : Option (List String))
    (provider : List PayloadMsg → ProviderResult)
    (hwf : WF db) (hs : s ∈ db.sessions) (hu : s.userId ≠ user.id)
    (hkey : cfg.openRouterApiKey ≠ "") :
    ForeignIsolation cfg db user s msg docIds provider := by
  obtain ⟨hid, hmsgid, hnodup⟩ := hwf
  have hinj : ∀ x ∈ db.sessions, ∀ y ∈ db.sessions, x.id = y.id → x = y := by
    intro x hx y hy hxy
    exact List.inj_on_of_nodup_map hnodup hx hy hxy
  have hfind : db.sessions.find? (fun t => t.id == s.id && t.userId == user.id) = none := by
    rw [List.find?_eq_none]
    intro x hx hcontra
    simp only [Bool.and_eq_true, beq_iff_eq] at hcontra
    have hxs : x = s := hinj x hx s hs hcontra.1
    rw [hxs] at hcontra
    exact hu hcontra.2
  have hres : resolveSession db user.id (some s.id) = none := by
    simp [resolveSession, hfind]
  have hsid : s.id < db.nextId := hid s hs
  have hsess : (sendMessage cfg db user ⟨msg, some s.id, docIds⟩ provider).db.sessions =
      db.sessions ++ [⟨db.nextId, user.id, titleSlice msg, db.nextId⟩] := by
    cases hp : provider (sendPrepare db user ⟨msg, some s.id, docIds⟩).payload with
    | ok c =>
      simp only [sendMessage, if_neg hkey, hp]
      simp [sendPrepare, sessionStep, hres, createMessage, createSession]
    | err d =>
      simp only [sendMessage, if_neg hkey, hp]
      simp [sendPrepare, sessionStep, hres, createMessage, createSession]
  have hmsgs : ∃ extra : List ChatMessage, (∀ m ∈ extra, m.sessionId = db.nextId) ∧
      (sendMessage cfg db user ⟨msg, some s.id, docIds⟩ provider).db.messages =
        db.messages ++ extra := by
    cases hp : provider (sendPrepare db user ⟨msg, some s.id, docIds⟩).payload with
    | ok c =>
      refine ⟨[⟨db.nextId + 1, db.nextId, "user", msg, db.nextId + 1⟩,
        ⟨db.nextId + 2, db.nextId, "assistant", c.getD fallbackAssistantContent,
          db.nextId + 2⟩], ?_, ?_⟩
      · intro m hm
        rcases List.mem_cons.mp hm with hm1 | hm2
        · rw [hm1]
        · rw [List.mem_singleton.mp hm2]
      · simp only [sendMessage, if_neg hkey, hp]
        simp [sendPrepare, sessionStep, hres, createMessage, createSession]
    | err d =>
      refine ⟨[⟨db.nextId + 1, db.nextId, "user", msg, db.nextId + 1⟩], ?_, ?_⟩
      · intro m hm
        rw [List.mem_singleton.mp hm]
      · simp only [sendMessage, if_neg hkey, hp]
        simp [sendPrepare, sessionStep, hres, createMessage, createSession]
  refine ⟨?_, ?_, ?_, ?_, ?_, ?_, ?_⟩
  · intro x hx hxid
    simp only [listSessions, List.mem_map] at hx
    obtain ⟨t, ht, rfl⟩ := hx
    have htf := mem_sortSessionsDesc.mp ht
    have htmem : t ∈ db.sessions := List.mem_of_mem_filter htf
    have htu : t.userId = user.id := by
      have := List.of_mem_filter htf
      simpa using this
    have hts : t = s := hinj t htmem s hs (by simpa using hxid)
    rw [hts] at htu
    exact hu htu
  · simp [getSession, hfind]
  · simp [deleteSession, hfind]
  · rw [hsess]
    exact List.mem_append_left _ hs
  · obtain ⟨extra, hex, heq⟩ := hmsgs
    rw [heq, List.filter_append]
    have hnil : extra.filter (fun m => m.sessionId == s.id) = [] := by
      rw [List.filter_eq_nil_iff]
      intro m hm
      have := hex m hm
      simp only [beq_iff_eq, this]
      omega
    rw [hnil, List.append_nil]
  · refine ⟨⟨db.nextId, user.id, titleSlice msg, db.nextId⟩, ?_, rfl, rfl,
      show db.nextId ≠ s.id by omega⟩
    rw [hsess]
    exact List.mem_append_right _ (List.mem_singleton.mpr rfl)
  · have hfm : db.messages.filter (fun m => m.sessionId == db.nextId) = [] := by
      rw [List.filter_eq_nil_iff]
      intro m hm
      have := hmsgid m hm
      simp only [beq_iff_eq]
      omega
    simp [sendPrepare, sessionStep, hres, createMessage, createSession, recentHistory,
      List.filter_append, hfm, sortByTimeAsc, insertByTime]

/-- Bob's session, foreign to the caller `userW`. -/
def sBob : ChatSession := ⟨0, "bob", "bobs chat", 0⟩

/-- A store holding only Bob's session. -/
def dbBob : DB := ⟨1, [sBob], [], []⟩

/-- Witness for C2 at a concrete store with a foreign session. -/
theorem foreign_session_isolated_witness :
    WF dbBob ∧ sBob ∈ dbBob.sessions ∧ sBob.userId ≠ userW.id ∧
      cfgW.openRouterApiKey ≠ "" ∧
      ForeignIsolation cfgW dbBob userW sBob "yo" none provErr :=
  ⟨⟨by decide, by decide, by decide⟩, by decide, by decide, by decide,
    foreign_session_isolated cfgW dbBob userW sBob "yo" none provErr
      ⟨by decide, by decide, by decide⟩ (by decide) (by decide) (by decide)⟩

end AuditVault
